import Mathlib

/-!
Shallow embedding of the core of the `knowledge_content_invent` repository:
the LLM model client (`RealLLMService.callLLM`, in both its retrying and its
non-retrying variant), the chunked long-content generator
(`ChunkedContentGenerator.generateLongContent`), the parallel section and
concept fan-outs of `EnhancedWorkflowOrchestrator`, its
`summarizeSearchResults` stage, and the task manager / task runner
(`TaskManagerService`, `TaskRunner`, `TaskContext`).

Effectful TypeScript is modelled by explicit parameters: the network
transport becomes a function from the attempt number to the observed
attempt outcome, ambient id/time generation becomes explicit arguments, and
thrown exceptions become `Except` values.  All definitions are translated
from the TypeScript sources.
-/

/-- Substring test on character lists: the needle occurs as a prefix at
some position of the haystack. -/
def charsInclude (needle : List Char) : List Char → Bool
  | [] => needle == []
  | c :: rest => needle.isPrefixOf (c :: rest) || charsInclude needle rest

/-- JS `String.prototype.includes(needle)`: the haystack contains the
needle as a contiguous substring. -/
def strIncludes (hay needle : String) : Bool :=
  charsInclude needle.toList hay.toList

/-- The `message` object of one choice of a chat-completion response body. -/
structure ChatMessage where
  content : String
deriving DecidableEq, Repr

/-- One element of the `choices` array of a chat-completion response body.
`message` is optional because the code guards `data.choices[0].message`. -/
structure ChatChoice where
  message : Option ChatMessage
deriving DecidableEq, Repr

/-- Observable outcome of one direct-API transport attempt inside
`RealLLMService.callLLM` (with `VITE_USE_BACKEND_PROXY` unset and an API key
configured, so the backend-proxy and mock-response branches are not taken):

* `netError name msg`: `fetch` itself rejected (network failure, CORS, or
  timeout `AbortError`);
* `httpError status statusText body`: a response with `!response.ok`, whose
  body text was read;
* `okJson choices stringified`: a 2xx response whose body parsed as JSON;
  `stringified` is `JSON.stringify(data)`, used when the choices structure
  is absent;
* `okMalformed msg`: a 2xx response whose `response.json()` threw (the
  error is caught by the outer `catch`). -/
inductive LLMAttempt where
  | netError (name : String) (msg : String)
  | httpError (status : Nat) (statusText : String) (body : String)
  | okJson (choices : List ChatChoice) (stringified : String)
  | okMalformed (msg : String)
deriving DecidableEq, Repr

/-- Result of one `callLLM` run: the resolved string, the number of
transport attempts performed, and the backoff delays (ms) awaited between
attempts, in order. -/
structure CallResult where
  content : String
  calls : Nat
  delays : List Nat
deriving DecidableEq, Repr

/-- `maxRetries` constant of the retrying `RealLLMService.callLLM`. -/
def maxRetries : Nat := 3

/-- Sentinel string returned after exhausting rate-limit retries. -/
def rateLimitSentinel : String := "Rate limit error occurred, skipping this term."

/-- Exponential backoff delay in ms: `Math.pow(2, attempts) * 1000`. -/
def rateLimitDelayMs (attempts : Nat) : Nat := 2 ^ attempts * 1000

/-- Error string built in the `fetch` catch block when `fetch` rejected
with an `AbortError` (the 20-minute timeout). -/
def requestTimeoutMessage : String :=
  "Request timeout: The LLM API call took more than 20 minutes. This may indicate network issues or a particularly complex request. The \x27qwen-max-latest\x27 model can take extended time for complex content generation."

/-- Error string built in the `fetch` catch block for CORS failures. -/
def corsErrorMessage : String :=
  "CORS error: The browser is blocking the request. This commonly happens when calling LLM APIs directly from a browser. Recommended solutions: 1) Set up a backend proxy service, 2) Use VITE_USE_BACKEND_PROXY=true in your environment to use the backend service, 3) Configure a proxy in your development server."

/-- Error string built in the `fetch` catch block for other network errors. -/
def networkErrorMessage (msg : String) : String :=
  "Network error: " ++ msg ++ ". This may be due to CORS restrictions when calling the API directly from the browser, or network connectivity issues. Recommended: Use a backend service to proxy API calls."

/-- Classification of a `fetch` rejection into the returned error string,
following the `if/else if/else` chain on the error name and message. -/
def netErrorReturn (name msg : String) : String :=
  if name == "AbortError" then requestTimeoutMessage
  else if strIncludes msg "CORS" || strIncludes msg "cross-origin" then corsErrorMessage
  else networkErrorMessage msg

/-- Error string returned for a non-rate-limit HTTP error response. -/
def httpErrorReturn (status : Nat) (statusText body : String) : String :=
  "HTTP error: " ++ toString status ++ " " ++ statusText ++ ". " ++ body

/-- Error string returned by the outer catch for a non-rate-limit thrown
error (for example a malformed-JSON parse failure). -/
def generalErrorReturn (msg : String) : String :=
  "Error occurred while calling the LLM: " ++ msg

/-- Rate-limit test applied to an HTTP error response:
`response.status === 429 || errorBody.includes(\x27limit_requests\x27)`. -/
def isRateLimitHttp (status : Nat) (body : String) : Bool :=
  status == 429 || strIncludes body "limit_requests"

/-- Rate-limit test applied by the outer catch to a thrown error message. -/
def isRateLimitMsg (msg : String) : Bool :=
  strIncludes msg "limit_requests" || strIncludes msg "rate limit" || strIncludes msg "429"

/-- Whether a transport attempt is seen by `callLLM` as a rate-limit error
(an HTTP 429, a rate-limit error body, or a thrown rate-limit message). -/
def isRateLimitAttempt : LLMAttempt → Bool
  | .httpError status _ body => isRateLimitHttp status body
  | .okMalformed msg => isRateLimitMsg msg
  | _ => false

/-- Content extraction from a parsed 2xx body:
`data.choices && data.choices[0] && data.choices[0].message` guards reading
`data.choices[0].message.content`; otherwise `JSON.stringify(data)`. -/
def extractContent (choices : List ChatChoice) (stringified : String) : String :=
  match choices with
  | [] => stringified
  | c :: _ =>
    match c.message with
    | some m => m.content
    | none => stringified

/-- One unrolling of the `while (attempts <= maxRetries)` loop of the
retrying `RealLLMService.callLLM`, from a given transport-call index and a
given value of the `attempts` counter.  A `fetch` rejection returns an
error string without retrying; a rate-limit HTTP response or a rate-limit
thrown message increments `attempts` and, while `attempts <= maxRetries`,
waits `2^attempts` seconds and retries, returning the sentinel string once
the budget is exhausted; every other outcome returns on the spot. -/
def callLLMFrom (t : Nat → LLMAttempt) (callIdx attempts : Nat) : CallResult :=
  match t callIdx with
  | .netError name msg => ⟨netErrorReturn name msg, callIdx + 1, []⟩
  | .httpError status statusText body =>
    if isRateLimitHttp status body then
      if h : attempts + 1 ≤ maxRetries then
        let r := callLLMFrom t (callIdx + 1) (attempts + 1)
        ⟨r.content, r.calls, rateLimitDelayMs (attempts + 1) :: r.delays⟩
      else ⟨rateLimitSentinel, callIdx + 1, []⟩
    else ⟨httpErrorReturn status statusText body, callIdx + 1, []⟩
  | .okJson choices stringified => ⟨extractContent choices stringified, callIdx + 1, []⟩
  | .okMalformed msg =>
    if isRateLimitMsg msg then
      if h : attempts + 1 ≤ maxRetries then
        let r := callLLMFrom t (callIdx + 1) (attempts + 1)
        ⟨r.content, r.calls, rateLimitDelayMs (attempts + 1) :: r.delays⟩
      else ⟨rateLimitSentinel, callIdx + 1, []⟩
    else ⟨generalErrorReturn msg, callIdx + 1, []⟩
termination_by maxRetries + 1 - attempts
decreasing_by
  all_goals simp only [maxRetries] at *
  all_goals omega

/-- The retrying `RealLLMService.callLLM` (file `src/unnamed/part_009`):
the loop starts with `attempts = 0` and the first transport call. -/
def callLLM (t : Nat → LLMAttempt) : CallResult :=
  callLLMFrom t 0 0

/-- The non-retrying `RealLLMService.callLLM`
(file `src/src/utils/RealLLMService.ts`): a single transport attempt whose
four outcomes map to the same return strings as in the retrying variant,
with no rate-limit handling at all. -/
def callLLMNoRetry (t : Nat → LLMAttempt) : CallResult :=
  match t 0 with
  | .netError name msg => ⟨netErrorReturn name msg, 1, []⟩
  | .httpError status statusText body => ⟨httpErrorReturn status statusText body, 1, []⟩
  | .okJson choices stringified => ⟨extractContent choices stringified, 1, []⟩
  | .okMalformed msg => ⟨generalErrorReturn msg, 1, []⟩

/-- One settled result of the concurrent section fan-out of
`EnhancedWorkflowOrchestrator.generateComprehensiveContent`. -/
structure SectionResult where
  title : String
  content : String
  index : Nat
deriving DecidableEq, Repr

/-- The fixed catalogue of section titles of
`generateComprehensiveContent`. -/
def sectionTitles : List String :=
  ["定义与基本概念",
   "技术原理与机制",
   "核心组件与架构",
   "应用场景与案例",
   "优势与挑战",
   "发展历程与趋势",
   "实施方法与步骤",
   "最佳实践与建议",
   "相关概念与关联技术",
   "总结与展望"]

/-- Rendering of one settled section:
the template `## title\n\ncontent\n\n`. -/
def formatSection (r : SectionResult) : String :=
  "## " ++ r.title ++ "\n\n" ++ r.content ++ "\n\n"

/-- The ascending comparator `(a, b) => a.index - b.index` of the result
sort. -/
def leByIndex (a b : SectionResult) : Bool := a.index ≤ b.index

/-- Sort of the settled section results by original index:
`sectionResults.sort((a, b) => a.index - b.index)`. -/
def sortByIndex (results : List SectionResult) : List SectionResult :=
  results.mergeSort leByIndex

/-- Assembly step of `generateComprehensiveContent`: sort the settled
results by their original section index, render each section, and join
with an empty separator. -/
def assembleSections (results : List SectionResult) : String :=
  String.join ((sortByIndex results).map formatSection)

/-- The settled results as they would arrive if completion happened in
canonical order: task `index` carries its title, its generated content
`contents index`, and its index. -/
def canonicalSectionResults (contents : Nat → String) : List SectionResult :=
  sectionTitles.enum.map fun p => ⟨p.2, contents p.1, p.1⟩

/-- Outcome of one orchestrator-level LLM call: the model client resolved
with a string, or the awaited promise rejected with an error message. -/
inductive CallOutcome where
  | ok (content : String)
  | err (msg : String)
deriving DecidableEq, Repr

/-- Placeholder content installed for a section whose three attempts all
failed. -/
def sectionPlaceholder : String := "[Content generation failed for this section]"

/-- The per-section retry loop of `generateComprehensiveContent`, from
attempt number `a`: a resolved content longer than 100 characters is
returned; an exception on the last attempt (`attempt === 2`) yields the
placeholder result; otherwise the next attempt runs.  If the loop ends
without returning (three too-short successes) the async function resolves
with `undefined`, modelled as `none`. -/
def attemptSection (call : Nat → CallOutcome) (title : String) (index : Nat)
    (a : Nat) : Option SectionResult :=
  if _h : a < 3 then
    match call a with
    | .ok s =>
      if s.length > 100 then some ⟨title, s, index⟩
      else attemptSection call title index (a + 1)
    | .err _ =>
      if a == 2 then some ⟨title, sectionPlaceholder, index⟩
      else attemptSection call title index (a + 1)
  else none
termination_by 3 - a

/-- One task of the section fan-out: the retry loop started at attempt 0. -/
def runSectionTask (call : Nat → CallOutcome) (title : String) (index : Nat) :
    Option SectionResult :=
  attemptSection call title index 0

/-- The concurrent section fan-out:
`sectionTitles.map((title, index) => ...)` settled with `Promise.all`,
which keeps task order.  `call i a` is the outcome of attempt `a` of the
task for section `i`. -/
def sectionBatch (call : Nat → Nat → CallOutcome) : List (Option SectionResult) :=
  sectionTitles.enum.map fun p => runSectionTask (call p.1) p.2 p.1

/-- One concept handed to `generateDetailedConceptExplanations`, as
produced by the extraction stage; optional fields model possibly-absent
JS object properties. -/
structure ExtractedConcept where
  term : String
  locationInContent : Option String
  relatedTerms : Option (List String)
  difficultyLevel : Option String
deriving DecidableEq, Repr

/-- One knowledge-base entry as built by
`generateDetailedConceptExplanations`. -/
structure KnowledgeBaseEntry where
  id : String
  term : String
  definition : String
  context : Option String
  relatedTerms : List String
  sources : List String
  timestamp : Nat
  difficultyLevel : String
deriving DecidableEq, Repr

/-- Fallback definition installed for a concept whose three attempts all
failed. -/
def conceptFallbackDefinition (term : String) : String :=
  "Detailed explanation for " ++ term ++ " would be generated here."

/-- The entry built from a successfully generated explanation. -/
def conceptSuccessEntry (c : ExtractedConcept) (explanation : String) (idStr : String)
    (time : Nat) (topic : String) : KnowledgeBaseEntry :=
  { id := idStr
    term := c.term
    definition := explanation
    context := c.locationInContent
    relatedTerms := c.relatedTerms.getD []
    sources := [topic]
    timestamp := time
    difficultyLevel := c.difficultyLevel.getD "medium" }

/-- The fallback entry built when all attempts for a concept failed. -/
def conceptFallbackEntry (c : ExtractedConcept) (idStr : String) (time : Nat)
    (topic : String) : KnowledgeBaseEntry :=
  { id := idStr
    term := c.term
    definition := conceptFallbackDefinition c.term
    context := c.locationInContent
    relatedTerms := []
    sources := [topic]
    timestamp := time
    difficultyLevel := c.difficultyLevel.getD "medium" }

/-- The per-concept retry loop of `generateDetailedConceptExplanations`,
from attempt number `a`: a resolved explanation longer than 50 characters
yields the success entry; an exception on the last attempt yields the
fallback entry; three too-short successes resolve with `undefined`
(`none`).  The ambient `generateId()` and `Date.now()` of the source are
modelled by the explicit `idStr` and `time` arguments. -/
def attemptConcept (call : Nat → CallOutcome) (c : ExtractedConcept) (idStr : String)
    (time : Nat) (topic : String) (a : Nat) : Option KnowledgeBaseEntry :=
  if _h : a < 3 then
    match call a with
    | .ok s =>
      if s.length > 50 then some (conceptSuccessEntry c s idStr time topic)
      else attemptConcept call c idStr time topic (a + 1)
    | .err _ =>
      if a == 2 then some (conceptFallbackEntry c idStr time topic)
      else attemptConcept call c idStr time topic (a + 1)
  else none
termination_by 3 - a

/-- One task of the concept fan-out: the retry loop started at attempt 0. -/
def runConceptTask (call : Nat → CallOutcome) (c : ExtractedConcept) (idStr : String)
    (time : Nat) (topic : String) : Option KnowledgeBaseEntry :=
  attemptConcept call c idStr time topic 0

/-- The concurrent concept fan-out of
`generateDetailedConceptExplanations`: `concepts.map(async (concept, i) =>
...)` settled with `Promise.all`, then
`filter(result => result !== undefined)`. -/
def conceptBatch (call : Nat → Nat → CallOutcome) (concepts : List ExtractedConcept)
    (idOf : Nat → String) (timeOf : Nat → Nat) (topic : String) :
    List KnowledgeBaseEntry :=
  (concepts.enum.map fun p =>
    runConceptTask (call p.1) p.2 (idOf p.1) (timeOf p.1) topic).filterMap id

/-- One record of the search stage, as consumed by
`summarizeSearchResults`. -/
structure SearchResult where
  query : String
  results : List String
deriving DecidableEq, Repr

/-- The raw concatenated search context built at the top of
`summarizeSearchResults`: a header followed, for each search record, by its
query line and the first five result strings joined by spaces. -/
def searchContextOf (searchResults : List SearchResult) : String :=
  "基于以下搜索结果总结：\n\n" ++
    String.join (searchResults.map fun r =>
      "搜索查询: " ++ r.query ++ "\n" ++
      "结果: " ++ String.intercalate " " (r.results.take 5) ++ "\n\n")

/-- The retry loop of `summarizeSearchResults`, from attempt number `a`:
a successful call returns its summary; an exception on the last attempt
(`attempt === 2`) is rethrown; otherwise the next attempt runs after a
delay.  The trailing `return searchContext` of the source is the
fall-through branch `a ≥ 3`. -/
def summarizeLoop (call : Nat → Except String String) (searchContext : String)
    (a : Nat) : Except String String :=
  if _h : a < 3 then
    match call a with
    | .ok summary => .ok summary
    | .error e =>
      if a == 2 then .error e
      else summarizeLoop call searchContext (a + 1)
  else .ok searchContext
termination_by 3 - a

/-- `EnhancedWorkflowOrchestrator.summarizeSearchResults`: build the raw
concatenated search context, then run the three-attempt summary loop over
it.  `call a` is the outcome of the model-client call on attempt `a`
(`.error` models a rejected promise). -/
def summarizeSearchResults (call : Nat → Except String String)
    (searchResults : List SearchResult) : Except String String :=
  summarizeLoop call (searchContextOf searchResults) 0

/-- Per-call token ceiling of `ChunkedContentGenerator.generateLongContent`
(`maxTokensPerCall`, kept below the API limit with a buffer). -/
def maxTokensPerCall : Nat := 6000

/-- Estimated content words per call:
`Math.floor(maxTokensPerCall * 0.75)`. -/
def estimatedWordsPerCall : Nat := maxTokensPerCall * 75 / 100

/-- Number of sequential chunks:
`Math.ceil(desiredWordCount / estimatedWordsPerCall)`. -/
def chunksNeeded (desiredWordCount : Nat) : Nat :=
  (desiredWordCount + estimatedWordsPerCall - 1) / estimatedWordsPerCall

/-- `ChunkedContentGenerator.createChunkPrompt`: the continuation prompt
for one chunk, including the base prompt, a 1000-character prefix of the
already generated content when nonempty, and the chunk position. -/
def createChunkPrompt (originalPrompt existingContent : String)
    (chunkIndex totalChunks : Nat) : String :=
  let p0 := "Based on the main topic: \"" ++ originalPrompt ++ "\"\n\n"
  let p1 :=
    if existingContent != "" then
      p0 ++ "Previous content:\n" ++ existingContent.take 1000 ++ "...\n\n"
    else p0
  p1 ++ "Generate detailed content for part " ++ toString (chunkIndex + 1) ++
    " of " ++ toString totalChunks ++ " for the topic \"" ++ originalPrompt ++
    "\". " ++ "Continue logically from any previous content. " ++
    "Ensure this part covers significant aspects of the topic in detail. " ++
    "Keep the writing style consistent with academic or educational content. " ++
    "Focus on providing comprehensive information with examples where relevant."

/-- The sequential chunk loop of `generateLongContent` from chunk `i`, with
the content accumulated so far.  Each iteration issues one model-client
call (`call` maps the chunk prompt to the returned chunk) and appends the
chunk plus a space; after the last chunk the accumulated content is
trimmed.  Returns the final content together with the list of chunk
outputs produced by the remaining iterations, in order. -/
def chunkLoop (call : String → String) (prompt : String) (total i : Nat)
    (fullContent : String) : String × List String :=
  if _h : i < total then
    let chunk := call (createChunkPrompt prompt fullContent i total)
    let r := chunkLoop call prompt total (i + 1) (fullContent ++ chunk ++ " ")
    (r.1, chunk :: r.2)
  else (fullContent.trim, [])
termination_by total - i

/-- `ChunkedContentGenerator.generateLongContent`: compute the number of
chunks from the desired word count, then run the sequential chunk loop
starting from an empty accumulator.  Returns the trimmed final content and
the list of chunk outputs (one per model-client call). -/
def generateLongContent (call : String → String) (prompt : String)
    (desiredWordCount : Nat) : String × List String :=
  chunkLoop call prompt (chunksNeeded desiredWordCount) 0 ""

/-- Task status of the task-manager data model. -/
inductive TaskStatus where
  | created
  | running
  | completed
  | failed
deriving DecidableEq, Repr

/-- One progress entry pushed by `updateTaskProgress`. -/
structure TaskProgress where
  step : String
  current : Nat
  total : Nat
  status : String
  details : String
deriving DecidableEq, Repr

/-- One prompt record of the `promptHistory` list of a task. -/
structure TaskPromptRecord where
  id : String
  taskId : String
  prompt : String
  response : Option String
  timestamp : Nat
  model : String
deriving DecidableEq, Repr

/-- The generation configuration captured by `createTask`. -/
structure ContentGenerationConfig where
  topic : String
  model : Option String
  enableKeywordExtraction : Option Bool
deriving DecidableEq, Repr

/-- The `Task` record managed by `TaskManagerService`.  The resulting
`GeneratedContent` payload is abstracted as a `String`. -/
structure ManagedTask where
  id : String
  topic : String
  status : TaskStatus
  createdAt : Nat
  startedAt : Option Nat
  completedAt : Option Nat
  progress : List TaskProgress
  promptHistory : List TaskPromptRecord
  generationConfig : ContentGenerationConfig
  currentContent : Option String
deriving DecidableEq, Repr

/-- `TaskManagerService.createTask`: a fresh task in status `created` with
empty progress and prompt history and no content.  The ambient
`generateId()` and `Date.now()` are the explicit `newId` and `now`. -/
def createTask (config : ContentGenerationConfig) (newId : String) (now : Nat) : ManagedTask :=
  { id := newId
    topic := config.topic
    status := .created
    createdAt := now
    startedAt := none
    completedAt := none
    progress := []
    promptHistory := []
    generationConfig := config
    currentContent := none }

/-- A `Partial<Task>` argument of `updateTask`, restricted to the fields
the task runner updates; `none` means the property is absent from the
update object. -/
structure TaskUpdate where
  status : Option TaskStatus := none
  startedAt : Option Nat := none
  completedAt : Option Nat := none
  currentContent : Option String := none
deriving DecidableEq, Repr

/-- The spread merge `{ ...task, ...updates }`: each property present in
the update object replaces the stored value. -/
def applyUpdate (t : ManagedTask) (u : TaskUpdate) : ManagedTask :=
  { t with
    status := u.status.getD t.status
    startedAt := match u.startedAt with | some x => some x | none => t.startedAt
    completedAt := match u.completedAt with | some x => some x | none => t.completedAt
    currentContent := match u.currentContent with | some x => some x | none => t.currentContent }

/-- Push of one progress entry onto a task, the per-task effect of
`updateTaskProgress`. -/
def pushProgress (t : ManagedTask) (p : TaskProgress) : ManagedTask :=
  { t with progress := t.progress ++ [p] }

/-- The `tasks` registry of the singleton `TaskManagerService`: a map from
task id to task, modelled as a function. -/
abbrev TaskRegistry : Type := String → Option ManagedTask

/-- `TaskManagerService.updateTask`: a missing id throws a not-found error
(leaving the registry untouched); an existing id is overwritten with the
merge of the stored task and the updates. -/
def updateTask (reg : TaskRegistry) (taskId : String) (updates : TaskUpdate) :
    Except String TaskRegistry :=
  match reg taskId with
  | none => .error ("Task " ++ taskId ++ " not found")
  | some t => .ok fun j => if j = taskId then some (applyUpdate t updates) else reg j

/-- `TaskManagerService.updateTaskProgress`: a missing id throws a
not-found error; an existing id has the progress entry appended. -/
def updateTaskProgress (reg : TaskRegistry) (taskId : String) (p : TaskProgress) :
    Except String TaskRegistry :=
  match reg taskId with
  | none => .error ("Task " ++ taskId ++ " not found")
  | some t => .ok fun j => if j = taskId then some (pushProgress t p) else reg j

/-- The progress entry pushed by `TaskRunner.runTask` when it starts. -/
def startProgress : TaskProgress :=
  ⟨"Started", 0, 100, "in-progress", "Task started"⟩

/-- The progress entry pushed by `TaskRunner.runTask` on success. -/
def completedProgress : TaskProgress :=
  ⟨"Completed", 100, 100, "completed", "Task completed successfully"⟩

/-- The progress entry pushed by `TaskRunner.runTask` on failure. -/
def failedProgress (msg : String) : TaskProgress :=
  ⟨"Error", 100, 100, "failed", msg⟩

/-- The successive values of the task mutated by `TaskRunner.runTask`,
starting from the stored task `t`: set `running` with a start timestamp,
push the start progress, then — depending on the orchestrator outcome —
either store the content with status `completed` and a completion
timestamp and push the completed progress, or set status `failed` and push
the error progress. -/
def runTaskStates (t : ManagedTask) (outcome : Except String String)
    (startTime endTime : Nat) : List ManagedTask :=
  let t1 := applyUpdate t { status := some .running, startedAt := some startTime }
  let t2 := pushProgress t1 startProgress
  match outcome with
  | .ok content =>
    let t3 := applyUpdate t2
      { currentContent := some content, status := some .completed,
        completedAt := some endTime }
    [t1, t2, t3, pushProgress t3 completedProgress]
  | .error e =>
    let t3 := applyUpdate t2 { status := some .failed }
    [t1, t2, t3, pushProgress t3 (failedProgress e)]

/-- Observable effect of one `TaskRunner.runTask` call on the
`TaskContext` slot: the result of the run, the context in force while the
orchestrator executes, and the context after the run settles. -/
structure RunCtxResult where
  result : Except String String
  ctxDuringRun : Option String
  ctxAfter : Option String
deriving Repr

/-- `TaskRunner.runTask` as a transformer of the `TaskContext` slot, with
initial context `ctx0`.  A missing task id throws before the `try` block,
leaving the context untouched.  Otherwise the context is set to the task
id, the orchestration outcome is either returned or rethrown, and the
`finally` block resets the context to `null`. -/
def runTaskCtx (reg : TaskRegistry) (taskId : String)
    (outcome : Except String String) (ctx0 : Option String) : RunCtxResult :=
  match reg taskId with
  | none => ⟨.error ("Task " ++ taskId ++ " not found"), ctx0, ctx0⟩
  | some _ =>
    let res : Except String String :=
      match outcome with
      | .ok content => .ok content
      | .error e => .error e
    ⟨res, some taskId, none⟩

/-- Whether a settled section slot carries the per-section failure
placeholder. -/
def isPlaceholderResult : Option SectionResult → Bool
  | some r => r.content == sectionPlaceholder
  | none => false

/-- Retrying from `attempts = 3` with a rate-limit outcome exhausts the
budget at once: `attempts` becomes 4, exceeding `maxRetries`, so the
sentinel is returned after this single transport call. -/
theorem callLLMFrom_rateLimit_exhausted (t : Nat → LLMAttempt) (c : Nat)
    (h : isRateLimitAttempt (t c) = true) :
    callLLMFrom t c 3 = ⟨rateLimitSentinel, c + 1, []⟩ := by
  rw [callLLMFrom.eq_def]
  cases ht : t c with
  | netError name msg => rw [ht] at h; simp [isRateLimitAttempt] at h
  | httpError status statusText body =>
    rw [ht] at h
    simp only [isRateLimitAttempt] at h
    simp [h, maxRetries]
  | okJson choices stringified => rw [ht] at h; simp [isRateLimitAttempt] at h
  | okMalformed msg =>
    rw [ht] at h
    simp only [isRateLimitAttempt] at h
    simp [h, maxRetries]

/-- A rate-limit outcome with retry budget left waits `2^(attempts+1)`
seconds and re-enters the loop with both counters advanced. -/
theorem callLLMFrom_rateLimit_retry (t : Nat → LLMAttempt) (c a : Nat)
    (ha : a + 1 ≤ 3) (h : isRateLimitAttempt (t c) = true) :
    callLLMFrom t c a =
      ⟨(callLLMFrom t (c + 1) (a + 1)).content,
       (callLLMFrom t (c + 1) (a + 1)).calls,
       rateLimitDelayMs (a + 1) :: (callLLMFrom t (c + 1) (a + 1)).delays⟩ := by
  rw [callLLMFrom.eq_def]
  cases ht : t c with
  | netError name msg => rw [ht] at h; simp [isRateLimitAttempt] at h
  | httpError status statusText body =>
    rw [ht] at h
    simp only [isRateLimitAttempt] at h
    simp [h, maxRetries, ha]
  | okJson choices stringified => rw [ht] at h; simp [isRateLimitAttempt] at h
  | okMalformed msg =>
    rw [ht] at h
    simp only [isRateLimitAttempt] at h
    simp [h, maxRetries, ha]

/-- C1.  Against a transport that always answers with a rate-limit error,
`callLLM` performs exactly `1 + maxRetries = 4` transport attempts,
waiting 2, 4 and 8 seconds between them (14 seconds in total), and then
resolves with the sentinel skip string, which mentions `skipping`. -/
theorem callLLM_rate_limited_gives_up (t : Nat → LLMAttempt)
    (h : ∀ i, isRateLimitAttempt (t i) = true) :
    callLLM t = ⟨rateLimitSentinel, 1 + maxRetries, [2000, 4000, 8000]⟩ ∧
    (callLLM t).delays.sum = 14000 ∧
    strIncludes rateLimitSentinel "skipping" = true := by
  have k3 := callLLMFrom_rateLimit_exhausted t 3 (h 3)
  have k2 := callLLMFrom_rateLimit_retry t 2 2 (by omega) (h 2)
  rw [k3] at k2
  have k1 := callLLMFrom_rateLimit_retry t 1 1 (by omega) (h 1)
  rw [k2] at k1
  have k0 := callLLMFrom_rateLimit_retry t 0 0 (by omega) (h 0)
  rw [k1] at k0
  have hc : callLLM t = ⟨rateLimitSentinel, 1 + maxRetries, [2000, 4000, 8000]⟩ := by
    rw [callLLM, k0]
    simp [rateLimitDelayMs, maxRetries]
  refine ⟨hc, ?_, by decide⟩
  rw [hc]
  rfl

/-- Closed witness for C1: a transport constantly answering HTTP 429. -/
theorem callLLM_rate_limited_gives_up_witness :
    callLLM (fun _ => .httpError 429 "Too Many Requests" "") =
      ⟨rateLimitSentinel, 1 + maxRetries, [2000, 4000, 8000]⟩ ∧
    (callLLM (fun _ => .httpError 429 "Too Many Requests" "")).delays.sum = 14000 ∧
    strIncludes rateLimitSentinel "skipping" = true :=
  callLLM_rate_limited_gives_up (fun _ => .httpError 429 "Too Many Requests" "")
    (fun _ =>
      (by decide : isRateLimitAttempt (.httpError 429 "Too Many Requests" "") = true))

/-- Every `callLLM` run performs between `1` and `1 + maxRetries - attempts`
further transport attempts beyond `callIdx`. -/
theorem callLLMFrom_calls_bounds (t : Nat → LLMAttempt) (c a : Nat) :
    c + 1 ≤ (callLLMFrom t c a).calls ∧
    (callLLMFrom t c a).calls ≤ c + 1 + (maxRetries - a) := by
  induction c, a using callLLMFrom.induct t with
  | case1 c a name msg heq =>
    rw [callLLMFrom.eq_def, heq]
    simp
  | case2 c a status statusText body heq hrl hle ih =>
    rw [callLLMFrom.eq_def, heq]
    simp only [hrl, if_true, hle, dite_true, dif_pos]
    simp only [maxRetries] at *
    omega
  | case3 c a status statusText body heq hrl hle =>
    rw [callLLMFrom.eq_def, heq]
    simp [hrl, hle]
  | case4 c a status statusText body heq hrl =>
    rw [callLLMFrom.eq_def, heq]
    simp [hrl]
  | case5 c a choices stringified heq =>
    rw [callLLMFrom.eq_def, heq]
    simp
  | case6 c a msg heq hrl hle ih =>
    rw [callLLMFrom.eq_def, heq]
    simp only [hrl, if_true, hle, dite_true, dif_pos]
    simp only [maxRetries] at *
    omega
  | case7 c a msg heq hrl hle =>
    rw [callLLMFrom.eq_def, heq]
    simp [hrl, hle]
  | case8 c a msg heq hrl =>
    rw [callLLMFrom.eq_def, heq]
    simp [hrl]

/-- C2.  `callLLM` always resolves to a string after at most
`1 + maxRetries` transport attempts (it never rejects), and a non-rate-limit
failure on the first attempt is not retried: the call returns after that
single attempt, with no backoff, resolving with the descriptive error
string of the failure (network/timeout classification, HTTP error text, or
the general error wrapper) as its content. -/
theorem callLLM_never_rejects_and_no_retry_on_other_errors :
    (∀ t : Nat → LLMAttempt,
      1 ≤ (callLLM t).calls ∧ (callLLM t).calls ≤ 1 + maxRetries) ∧
    (∀ t : Nat → LLMAttempt, ∀ name msg, t 0 = .netError name msg →
      callLLM t = ⟨netErrorReturn name msg, 1, []⟩) ∧
    (∀ t : Nat → LLMAttempt, ∀ status statusText body,
      t 0 = .httpError status statusText body →
      isRateLimitHttp status body = false →
      callLLM t = ⟨httpErrorReturn status statusText body, 1, []⟩) ∧
    (∀ t : Nat → LLMAttempt, ∀ msg, t 0 = .okMalformed msg →
      isRateLimitMsg msg = false →
      callLLM t = ⟨generalErrorReturn msg, 1, []⟩) := by
  refine ⟨fun t => ?_, fun t name msg ht => ?_, fun t s st b ht hrl => ?_,
    fun t msg ht hrl => ?_⟩
  · have h := callLLMFrom_calls_bounds t 0 0
    rw [callLLM]
    omega
  · rw [callLLM, callLLMFrom.eq_def, ht]
  · rw [callLLM, callLLMFrom.eq_def, ht]
    simp [hrl]
  · rw [callLLM, callLLMFrom.eq_def, ht]
    simp [hrl]

/-- Closed witness for C2: a transport whose first attempt is a plain HTTP
500 error, a network error, and a malformed 2xx body, respectively. -/
theorem callLLM_never_rejects_witness :
    (1 ≤ (callLLM fun _ => .httpError 500 "Internal Server Error" "oops").calls ∧
      (callLLM fun _ => .httpError 500 "Internal Server Error" "oops").calls ≤ 1 + maxRetries) ∧
    callLLM (fun _ => .netError "TypeError" "Failed to fetch") =
      ⟨netErrorReturn "TypeError" "Failed to fetch", 1, []⟩ ∧
    callLLM (fun _ => .httpError 500 "Internal Server Error" "oops") =
      ⟨httpErrorReturn 500 "Internal Server Error" "oops", 1, []⟩ ∧
    callLLM (fun _ => .okMalformed "Unexpected end of JSON input") =
      ⟨generalErrorReturn "Unexpected end of JSON input", 1, []⟩ :=
  ⟨callLLM_never_rejects_and_no_retry_on_other_errors.1 _,
   callLLM_never_rejects_and_no_retry_on_other_errors.2.1 _ _ _ rfl,
   callLLM_never_rejects_and_no_retry_on_other_errors.2.2.1 _ 500 "Internal Server Error"
     "oops" rfl (by decide),
   callLLM_never_rejects_and_no_retry_on_other_errors.2.2.2 _ "Unexpected end of JSON input"
     rfl (by decide)⟩

/-- C10.  The two coexisting `RealLLMService.callLLM` implementations (the
non-retrying one and the retrying one) agree on the first-attempt-success
path: when the first transport attempt is a well-formed 2xx
chat-completion response, both resolve with
`data.choices[0].message.content` after exactly one attempt. -/
theorem callLLM_variants_agree_on_success (t : Nat → LLMAttempt)
    (choices : List ChatChoice) (stringified : String) (c : ChatChoice)
    (rest : List ChatChoice) (m : ChatMessage)
    (ht : t 0 = .okJson choices stringified)
    (hc : choices = c :: rest) (hm : c.message = some m) :
    callLLM t = ⟨m.content, 1, []⟩ ∧
    callLLMNoRetry t = ⟨m.content, 1, []⟩ ∧
    (callLLM t).content = (callLLMNoRetry t).content := by
  have h1 : callLLM t = ⟨m.content, 1, []⟩ := by
    rw [callLLM, callLLMFrom.eq_def, ht, hc]
    simp [extractContent, hm]
  have h2 : callLLMNoRetry t = ⟨m.content, 1, []⟩ := by
    rw [callLLMNoRetry.eq_def, ht, hc]
    simp [extractContent, hm]
  exact ⟨h1, h2, by rw [h1, h2]⟩

/-- Closed witness for C10: a transport whose first attempt succeeds with
one choice containing the message content `hello`. -/
theorem callLLM_variants_agree_on_success_witness :
    callLLM (fun _ => .okJson [⟨some ⟨"hello"⟩⟩] "raw") = ⟨"hello", 1, []⟩ ∧
    callLLMNoRetry (fun _ => .okJson [⟨some ⟨"hello"⟩⟩] "raw") = ⟨"hello", 1, []⟩ ∧
    (callLLM (fun _ => .okJson [⟨some ⟨"hello"⟩⟩] "raw")).content =
      (callLLMNoRetry (fun _ => .okJson [⟨some ⟨"hello"⟩⟩] "raw")).content :=
  callLLM_variants_agree_on_success _ _ "raw" ⟨some ⟨"hello"⟩⟩ [] ⟨"hello"⟩ rfl rfl rfl

/-- Appending to the accumulator of a string fold distributes on the left. -/
theorem strFoldl_append_acc (l : List String) :
    ∀ s t : String,
      List.foldl (fun r c => r ++ c) (s ++ t) l =
        s ++ List.foldl (fun r c => r ++ c) t l := by
  induction l with
  | nil => intro s t; rfl
  | cons b l ih =>
    intro s t
    simp only [List.foldl_cons, String.append_assoc]
    exact ih s (t ++ b)

/-- `String.join` of a cons splits off its head. -/
theorem strJoin_cons (a : String) (l : List String) :
    String.join (a :: l) = a ++ String.join l := by
  show List.foldl (fun r c => r ++ c) "" (a :: l) =
    a ++ List.foldl (fun r c => r ++ c) "" l
  simp only [List.foldl_cons, String.empty_append]
  have h := strFoldl_append_acc l a ""
  rw [String.append_empty] at h
  exact h

/-- The chunk loop from position `i` performs `total - i` further calls and
resolves with the trimmed concatenation of the accumulator and the chunk
outputs, each followed by a space. -/
theorem chunkLoop_spec (call : String → String) (prompt : String) :
    ∀ (n total i : Nat) (fullContent : String), total - i ≤ n →
      (chunkLoop call prompt total i fullContent).2.length = total - i ∧
      (chunkLoop call prompt total i fullContent).1 =
        (fullContent ++
          String.join ((chunkLoop call prompt total i fullContent).2.map
            (fun c => c ++ " "))).trim := by
  intro n
  induction n with
  | zero =>
    intro total i full hn
    have h : ¬ i < total := by omega
    rw [chunkLoop.eq_def]
    simp only [dif_neg h, List.length_nil, List.map_nil]
    refine ⟨by omega, ?_⟩
    show full.trim = (full ++ String.join []).trim
    rw [show String.join [] = "" from rfl, String.append_empty]
  | succ n ih =>
    intro total i full hn
    by_cases h : i < total
    · rw [chunkLoop.eq_def]
      simp only [dif_pos h]
      obtain ⟨ih1, ih2⟩ :=
        ih total (i + 1) (full ++ call (createChunkPrompt prompt full i total) ++ " ")
          (by omega)
      constructor
      · simp only [List.length_cons, ih1]
        omega
      · simp only [List.map_cons, strJoin_cons]
        simp only [String.append_assoc] at ih2 ⊢
        rw [ih2]
    · rw [chunkLoop.eq_def]
      simp only [dif_neg h, List.length_nil, List.map_nil]
      refine ⟨by omega, ?_⟩
      show full.trim = (full ++ String.join []).trim
      rw [show String.join [] = "" from rfl, String.append_empty]

/-- C6.  `generateLongContent` issues exactly
`ceil(desiredWordCount / estimatedWordsPerCall)` sequential model-client
calls — `chunksNeeded` is the least number of chunks whose combined budget
covers the desired size — and resolves with the chunk outputs concatenated
in order, each separated (and followed) by one space, finally trimmed. -/
theorem generateLongContent_call_count_and_assembly (call : String → String)
    (prompt : String) (desiredWordCount : Nat) :
    (generateLongContent call prompt desiredWordCount).2.length =
      chunksNeeded desiredWordCount ∧
    (desiredWordCount ≤ chunksNeeded desiredWordCount * estimatedWordsPerCall ∧
      ∀ m, desiredWordCount ≤ m * estimatedWordsPerCall →
        chunksNeeded desiredWordCount ≤ m) ∧
    (generateLongContent call prompt desiredWordCount).1 =
      (String.join ((generateLongContent call prompt desiredWordCount).2.map
        (fun c => c ++ " "))).trim := by
  have h := chunkLoop_spec call prompt (chunksNeeded desiredWordCount)
    (chunksNeeded desiredWordCount) 0 "" (by omega)
  refine ⟨?_, ⟨?_, fun m hm => ?_⟩, ?_⟩
  · rw [generateLongContent, h.1]
    omega
  · simp only [chunksNeeded, estimatedWordsPerCall, maxTokensPerCall]
    omega
  · simp only [chunksNeeded, estimatedWordsPerCall, maxTokensPerCall] at *
    omega
  · rw [generateLongContent, h.2, String.empty_append]

/-- Closed witness for C6: three chunks are needed for 9001 desired words
at a 4500-word per-call budget. -/
theorem generateLongContent_call_count_witness :
    (generateLongContent (fun _ => "chunk") "topic" 9001).2.length =
      chunksNeeded 9001 ∧
    (9001 ≤ chunksNeeded 9001 * estimatedWordsPerCall ∧
      ∀ m, 9001 ≤ m * estimatedWordsPerCall → chunksNeeded 9001 ≤ m) ∧
    (generateLongContent (fun _ => "chunk") "topic" 9001).1 =
      (String.join ((generateLongContent (fun _ => "chunk") "topic" 9001).2.map
        (fun c => c ++ " "))).trim :=
  generateLongContent_call_count_and_assembly (fun _ => "chunk") "topic" 9001

/-- When every attempt of the summary loop rejects, the loop rethrows the
error of the third attempt; the trailing raw-context return is never
reached. -/
theorem summarizeLoop_all_fail (call : Nat → Except String String)
    (ctx : String) (e : Nat → String) (h : ∀ a, a < 3 → call a = .error (e a)) :
    summarizeLoop call ctx 0 = .error (e 2) := by
  rw [summarizeLoop.eq_def, h 0 (by omega)]
  simp only [show (0:Nat) < 3 by omega, dite_true]
  norm_num
  rw [summarizeLoop.eq_def, h 1 (by omega)]
  simp only [show (1:Nat) < 3 by omega, dite_true]
  norm_num
  rw [summarizeLoop.eq_def, h 2 (by omega)]
  simp

/-- C5.  Evaluating `summarizeSearchResults` with a model client rejecting
on all three attempts: it terminates with the rethrown third error, not
with the raw concatenated search context, so the degraded-value fallback
described in the spec (the unreachable `return searchContext` line of the
function itself) is not what the code does. -/
theorem summarizeSearchResults_rethrows_on_exhaustion :
    summarizeSearchResults (fun _ => .error "LLM rejected")
        [⟨"q1", ["r1", "r2"]⟩] = .error "LLM rejected" ∧
    summarizeSearchResults (fun _ => .error "LLM rejected")
        [⟨"q1", ["r1", "r2"]⟩] ≠
      .ok (searchContextOf [⟨"q1", ["r1", "r2"]⟩]) := by
  have h : summarizeSearchResults (fun _ => .error "LLM rejected")
      [⟨"q1", ["r1", "r2"]⟩] = .error "LLM rejected" :=
    summarizeLoop_all_fail _ _ (fun _ => "LLM rejected") (fun a _ => rfl)
  exact ⟨h, by rw [h]; exact fun hc => Except.noConfusion hc⟩

/-- C7.  Over the lifecycle of a task created by `createTask` and driven
once by `TaskRunner.runTask`, the observed statuses are exactly
`created → running → completed` on success and `created → running → failed`
on failure (the two progress pushes do not change the status), so no state
returns to `created` or `running` after the terminal update; and in every
intermediate state `currentContent` is set if and only if the status is
`completed`. -/
theorem task_lifecycle_monotonic (config : ContentGenerationConfig)
    (newId : String) (now startTime endTime : Nat)
    (outcome : Except String String) :
    ((createTask config newId now ::
        runTaskStates (createTask config newId now) outcome startTime endTime).map
          ManagedTask.status =
      match outcome with
      | .ok _ => [.created, .running, .running, .completed, .completed]
      | .error _ => [.created, .running, .running, .failed, .failed]) ∧
    ∀ s ∈ createTask config newId now ::
        runTaskStates (createTask config newId now) outcome startTime endTime,
      (s.currentContent.isSome = true ↔ s.status = TaskStatus.completed) := by
  cases outcome with
  | ok content =>
    refine ⟨?_, ?_⟩
    · simp [createTask, runTaskStates, applyUpdate, pushProgress]
    · intro s hs
      simp only [runTaskStates, applyUpdate, pushProgress, List.mem_cons,
        List.not_mem_nil, or_false] at hs
      rcases hs with h | h | h | h | h <;> subst h <;>
        simp [createTask, applyUpdate, pushProgress]
  | error e =>
    refine ⟨?_, ?_⟩
    · simp [createTask, runTaskStates, applyUpdate, pushProgress]
    · intro s hs
      simp only [runTaskStates, applyUpdate, pushProgress, List.mem_cons,
        List.not_mem_nil, or_false] at hs
      rcases hs with h | h | h | h | h <;> subst h <;>
        simp [createTask, applyUpdate, pushProgress]

/-- Closed witness for C7 at a concrete configuration, for both a
successful and a failed orchestration outcome. -/
theorem task_lifecycle_monotonic_witness :
    (((createTask ⟨"量子计算", none, none⟩ "t1" 5 ::
        runTaskStates (createTask ⟨"量子计算", none, none⟩ "t1" 5)
          (.ok "document") 6 9).map ManagedTask.status =
      [.created, .running, .running, .completed, .completed]) ∧
      ∀ s ∈ createTask ⟨"量子计算", none, none⟩ "t1" 5 ::
          runTaskStates (createTask ⟨"量子计算", none, none⟩ "t1" 5)
            (.ok "document") 6 9,
        (s.currentContent.isSome = true ↔ s.status = TaskStatus.completed)) ∧
    ((createTask ⟨"量子计算", none, none⟩ "t1" 5 ::
        runTaskStates (createTask ⟨"量子计算", none, none⟩ "t1" 5)
          (.error "boom") 6 9).map ManagedTask.status =
      [.created, .running, .running, .failed, .failed]) :=
  ⟨task_lifecycle_monotonic ⟨"量子计算", none, none⟩ "t1" 5 6 9 (.ok "document"),
   (task_lifecycle_monotonic ⟨"量子计算", none, none⟩ "t1" 5 6 9 (.error "boom")).1⟩

/-- C8.  `updateTask` and `updateTaskProgress` on an id absent from the
registry throw the not-found error (producing no updated registry), while
on a present id they produce a registry holding the merged (respectively
progress-extended) task at that id and unchanged entries elsewhere. -/
theorem updateTask_not_found_and_merge (reg : TaskRegistry) (taskId : String)
    (u : TaskUpdate) (p : TaskProgress) :
    (reg taskId = none →
      updateTask reg taskId u = .error ("Task " ++ taskId ++ " not found") ∧
      updateTaskProgress reg taskId p =
        .error ("Task " ++ taskId ++ " not found")) ∧
    (∀ t, reg taskId = some t →
      ∃ regNew, updateTask reg taskId u = .ok regNew ∧
        regNew taskId = some (applyUpdate t u) ∧
        ∀ j, j ≠ taskId → regNew j = reg j) ∧
    (∀ t, reg taskId = some t →
      ∃ regNew, updateTaskProgress reg taskId p = .ok regNew ∧
        regNew taskId = some (pushProgress t p) ∧
        ∀ j, j ≠ taskId → regNew j = reg j) := by
  refine ⟨fun hnone => ?_, fun t ht => ?_, fun t ht => ?_⟩
  · rw [updateTask, updateTaskProgress, hnone]
    exact ⟨rfl, rfl⟩
  · rw [updateTask, ht]
    refine ⟨_, rfl, ?_, fun j hj => ?_⟩
    · simp
    · simp [hj]
  · rw [updateTaskProgress, ht]
    refine ⟨_, rfl, ?_, fun j hj => ?_⟩
    · simp
    · simp [hj]

/-- Closed witness for C8: a one-task registry queried at a missing and at
the present id. -/
theorem updateTask_not_found_and_merge_witness :
    (updateTask
        (fun j => if j = "t1" then some (createTask ⟨"topic", none, none⟩ "t1" 0) else none)
        "missing" {} = .error ("Task " ++ "missing" ++ " not found") ∧
      updateTaskProgress
        (fun j => if j = "t1" then some (createTask ⟨"topic", none, none⟩ "t1" 0) else none)
        "missing" startProgress = .error ("Task " ++ "missing" ++ " not found")) ∧
    (∃ regNew,
      updateTask
        (fun j => if j = "t1" then some (createTask ⟨"topic", none, none⟩ "t1" 0) else none)
        "t1" {} = .ok regNew ∧
      regNew "t1" = some (applyUpdate (createTask ⟨"topic", none, none⟩ "t1" 0) {}) ∧
      ∀ j, j ≠ "t1" →
        regNew j =
          (fun j => if j = "t1" then some (createTask ⟨"topic", none, none⟩ "t1" 0) else none) j) :=
  ⟨(updateTask_not_found_and_merge
      (fun j => if j = "t1" then some (createTask ⟨"topic", none, none⟩ "t1" 0) else none)
      "missing" {} startProgress).1 (by decide),
   (updateTask_not_found_and_merge
      (fun j => if j = "t1" then some (createTask ⟨"topic", none, none⟩ "t1" 0) else none)
      "t1" {} startProgress).2.1 _ (by decide)⟩

/-- C9.  After a `TaskRunner.runTask` run settles — succeeding or
rejecting — the `TaskContext` slot is `null`: when the task exists the
context is set to the task id for the duration of the orchestration and
reset in the `finally` block regardless of the outcome; the only path not
entering the `try` block is the missing-task throw, which leaves the
context as it was, hence `null` under the cleared-between-runs invariant. -/
theorem runTask_clears_task_context (reg : TaskRegistry) (taskId : String)
    (outcome : Except String String) (ctx0 : Option String)
    (h : ctx0 = none ∨ (reg taskId).isSome = true) :
    (runTaskCtx reg taskId outcome ctx0).ctxAfter = none ∧
    ((reg taskId).isSome = true →
      (runTaskCtx reg taskId outcome ctx0).ctxDuringRun = some taskId) := by
  cases hr : reg taskId with
  | none =>
    rcases h with h | h
    · subst h
      rw [runTaskCtx.eq_def, hr]
      exact ⟨rfl, fun hc => by simp at hc⟩
    · rw [hr] at h
      simp at h
  | some t =>
    rw [runTaskCtx.eq_def, hr]
    exact ⟨rfl, fun _ => rfl⟩

/-- Closed witness for C9: a run of an existing task with a stale non-null
starting context, for both outcomes, and a missing-task run from a null
context. -/
theorem runTask_clears_task_context_witness :
    (runTaskCtx
        (fun j => if j = "t1" then some (createTask ⟨"topic", none, none⟩ "t1" 0) else none)
        "t1" (.ok "document") (some "stale")).ctxAfter = none ∧
    (runTaskCtx
        (fun j => if j = "t1" then some (createTask ⟨"topic", none, none⟩ "t1" 0) else none)
        "t1" (.error "boom") (some "stale")).ctxAfter = none ∧
    (runTaskCtx
        (fun j => if j = "t1" then some (createTask ⟨"topic", none, none⟩ "t1" 0) else none)
        "missing" (.ok "document") none).ctxAfter = none :=
  ⟨(runTask_clears_task_context _ "t1" (.ok "document") (some "stale")
      (Or.inr (by decide))).1,
   (runTask_clears_task_context _ "t1" (.error "boom") (some "stale")
      (Or.inr (by decide))).1,
   (runTask_clears_task_context _ "missing" (.ok "document") none
      (Or.inl rfl)).1⟩

/-- A sorted result list whose indices are pairwise distinct is strictly
sorted by index. -/
theorem sortByIndex_strictSorted (l : List SectionResult)
    (hnd : ((sortByIndex l).map SectionResult.index).Nodup) :
    List.Pairwise (fun a b : SectionResult => a.index < b.index) (sortByIndex l) := by
  have hs : List.Pairwise (fun a b : SectionResult => leByIndex a b = true)
      (sortByIndex l) :=
    List.sorted_mergeSort
      (by intro a b c hab hbc; simp only [leByIndex, decide_eq_true_eq] at *; omega)
      (by
        intro a b
        simp only [leByIndex, Bool.or_eq_true, decide_eq_true_eq]
        omega) l
  have hne : List.Pairwise (fun a b : SectionResult => a.index ≠ b.index)
      (sortByIndex l) := List.pairwise_map.mp hnd
  exact (hs.and hne).imp fun h =>
    lt_of_le_of_ne (by simpa [leByIndex] using h.1) h.2

/-- Sorting is insensitive to the arrival permutation when indices are
pairwise distinct. -/
theorem sortByIndex_eq_of_perm (l₁ l₂ : List SectionResult) (hp : l₁.Perm l₂)
    (hnd : (l₂.map SectionResult.index).Nodup) :
    sortByIndex l₁ = sortByIndex l₂ := by
  haveI : IsAntisymm SectionResult (fun a b => a.index < b.index) :=
    ⟨fun a b h1 h2 => absurd (Nat.lt_trans h1 h2) (Nat.lt_irrefl _)⟩
  have hperm : (sortByIndex l₁).Perm (sortByIndex l₂) :=
    ((l₁.mergeSort_perm leByIndex).trans hp).trans
      (l₂.mergeSort_perm leByIndex).symm
  have hnd₂ : ((sortByIndex l₂).map SectionResult.index).Nodup :=
    (((l₂.mergeSort_perm leByIndex).map SectionResult.index).nodup_iff).mpr hnd
  have hnd₁ : ((sortByIndex l₁).map SectionResult.index).Nodup :=
    ((hperm.map SectionResult.index).nodup_iff).mpr hnd₂
  exact List.eq_of_perm_of_sorted hperm (sortByIndex_strictSorted l₁ hnd₁)
    (sortByIndex_strictSorted l₂ hnd₂)

/-- The canonical-order results carry pairwise-distinct indices. -/
theorem canonical_index_nodup (contents : Nat → String) :
    ((canonicalSectionResults contents).map SectionResult.index).Nodup := by
  rw [canonicalSectionResults, List.map_map]
  have h : (SectionResult.index ∘
      fun p : Nat × String => (⟨p.2, contents p.1, p.1⟩ : SectionResult)) =
      fun p : Nat × String => p.1 := rfl
  rw [h]
  decide

/-- The canonical-order results are strictly sorted by index. -/
theorem canonical_strictSorted (contents : Nat → String) :
    List.Pairwise (fun a b : SectionResult => a.index < b.index)
      (canonicalSectionResults contents) := by
  rw [canonicalSectionResults]
  apply List.pairwise_map.mpr
  show List.Pairwise (fun p q : Nat × String => p.1 < q.1) sectionTitles.enum
  decide

/-- Sorting the canonical-order results leaves them unchanged. -/
theorem sortByIndex_canonical (contents : Nat → String) :
    sortByIndex (canonicalSectionResults contents) =
      canonicalSectionResults contents := by
  haveI : IsAntisymm SectionResult (fun a b => a.index < b.index) :=
    ⟨fun a b h1 h2 => absurd (Nat.lt_trans h1 h2) (Nat.lt_irrefl _)⟩
  have hnd : ((sortByIndex (canonicalSectionResults contents)).map
      SectionResult.index).Nodup :=
    ((((canonicalSectionResults contents).mergeSort_perm leByIndex).map
      SectionResult.index).nodup_iff).mpr (canonical_index_nodup contents)
  exact List.eq_of_perm_of_sorted
    ((canonicalSectionResults contents).mergeSort_perm leByIndex)
    (sortByIndex_strictSorted _ hnd) (canonical_strictSorted contents)

/-- C3.  For any completion-order permutation of the per-section results,
the assembly step of `generateComprehensiveContent` sorts them back to the
canonical order, so the assembled document is the one obtained from the
canonical `sectionTitles` order. -/
theorem sections_assembled_in_canonical_order (contents : Nat → String)
    (settled : List SectionResult)
    (hp : settled.Perm (canonicalSectionResults contents)) :
    sortByIndex settled = canonicalSectionResults contents ∧
    assembleSections settled =
      assembleSections (canonicalSectionResults contents) := by
  have h1 : sortByIndex settled = sortByIndex (canonicalSectionResults contents) :=
    sortByIndex_eq_of_perm _ _ hp (canonical_index_nodup contents)
  have h2 := sortByIndex_canonical contents
  refine ⟨h1.trans h2, ?_⟩
  rw [assembleSections, assembleSections, sortByIndex] at *
  rw [h1]

/-- Closed witness for C3: the reversed completion order assembles to the
canonical document. -/
theorem sections_assembled_in_canonical_order_witness :
    sortByIndex ((canonicalSectionResults fun i => toString i).reverse) =
      canonicalSectionResults (fun i => toString i) ∧
    assembleSections ((canonicalSectionResults fun i => toString i).reverse) =
      assembleSections (canonicalSectionResults fun i => toString i) :=
  sections_assembled_in_canonical_order (fun i => toString i) _
    (List.reverse_perm _)

/-- A section task whose three attempts all reject resolves with the
placeholder result. -/
theorem runSectionTask_all_fail (call : Nat → CallOutcome) (title : String)
    (index : Nat) (h : ∀ a, a < 3 → ∃ m, call a = .err m) :
    runSectionTask call title index = some ⟨title, sectionPlaceholder, index⟩ := by
  obtain ⟨m0, h0⟩ := h 0 (by omega)
  obtain ⟨m1, h1⟩ := h 1 (by omega)
  obtain ⟨m2, h2⟩ := h 2 (by omega)
  rw [runSectionTask]
  rw [attemptSection.eq_def, h0]
  norm_num
  rw [attemptSection.eq_def, h1]
  norm_num
  rw [attemptSection.eq_def, h2]
  norm_num

/-- A section task whose first attempt resolves with content longer than
100 characters resolves with that content. -/
theorem runSectionTask_first_success (call : Nat → CallOutcome) (title : String)
    (index : Nat) (s : String) (h0 : call 0 = .ok s) (hlen : s.length > 100) :
    runSectionTask call title index = some ⟨title, s, index⟩ := by
  rw [runSectionTask, attemptSection.eq_def, h0]
  norm_num [hlen]

/-- Pointwise description of a section task when exactly task `k` always
fails and every other task succeeds on its first attempt. -/
theorem runSectionTask_spec (call : Nat → Nat → CallOutcome) (k : Nat)
    (contents : Nat → String)
    (hfail : ∀ a, a < 3 → ∃ m, call k a = .err m)
    (hsucc : ∀ i, i < sectionTitles.length → i ≠ k →
      call i 0 = .ok (contents i) ∧ (contents i).length > 100)
    (i : Nat) (title : String) (hi : i < sectionTitles.length) :
    runSectionTask (call i) title i =
      some ⟨title, if i = k then sectionPlaceholder else contents i, i⟩ := by
  by_cases hik : i = k
  · subst hik
    rw [if_pos rfl]
    exact runSectionTask_all_fail _ _ _ hfail
  · rw [if_neg hik]
    obtain ⟨h0, hlen⟩ := hsucc i hi hik
    exact runSectionTask_first_success _ _ _ _ h0 hlen

/-- A concept task whose three attempts all reject resolves with the
fallback entry. -/
theorem runConceptTask_all_fail (call : Nat → CallOutcome) (c : ExtractedConcept)
    (idStr : String) (time : Nat) (topic : String)
    (h : ∀ a, a < 3 → ∃ m, call a = .err m) :
    runConceptTask call c idStr time topic =
      some (conceptFallbackEntry c idStr time topic) := by
  obtain ⟨m0, h0⟩ := h 0 (by omega)
  obtain ⟨m1, h1⟩ := h 1 (by omega)
  obtain ⟨m2, h2⟩ := h 2 (by omega)
  rw [runConceptTask]
  rw [attemptConcept.eq_def, h0]
  norm_num
  rw [attemptConcept.eq_def, h1]
  norm_num
  rw [attemptConcept.eq_def, h2]
  norm_num

/-- A concept task whose first attempt resolves with an explanation longer
than 50 characters resolves with the success entry. -/
theorem runConceptTask_first_success (call : Nat → CallOutcome)
    (c : ExtractedConcept) (idStr : String) (time : Nat) (topic : String)
    (s : String) (h0 : call 0 = .ok s) (hlen : s.length > 50) :
    runConceptTask call c idStr time topic =
      some (conceptSuccessEntry c s idStr time topic) := by
  rw [runConceptTask, attemptConcept.eq_def, h0]
  norm_num [hlen]

/-- C4.  In both concurrent fan-outs — per-section generation and per-term
expansion — if exactly one of the N tasks rejects on all three of its
attempts while every other task succeeds, the batch still settles with N
results: the failed slot carries the explicit fallback placeholder and
every other slot carries its real generated content; in the section batch
exactly one settled slot carries the placeholder content. -/
theorem fanout_isolates_single_failure :
    (∀ (call : Nat → Nat → CallOutcome) (k : Nat) (contents : Nat → String),
      k < sectionTitles.length →
      (∀ a, a < 3 → ∃ m, call k a = .err m) →
      (∀ i, i < sectionTitles.length → i ≠ k →
        call i 0 = .ok (contents i) ∧ (contents i).length > 100) →
      (sectionBatch call).length = sectionTitles.length ∧
      sectionBatch call = sectionTitles.enum.map
        (fun p => some ⟨p.2, if p.1 = k then sectionPlaceholder else contents p.1, p.1⟩) ∧
      (sectionBatch call).countP isPlaceholderResult = 1) ∧
    (∀ (call : Nat → Nat → CallOutcome) (concepts : List ExtractedConcept)
        (k : Nat) (contents : Nat → String) (idOf : Nat → String)
        (timeOf : Nat → Nat) (topic : String),
      k < concepts.length →
      (∀ a, a < 3 → ∃ m, call k a = .err m) →
      (∀ i, i < concepts.length → i ≠ k →
        call i 0 = .ok (contents i) ∧ (contents i).length > 50) →
      (conceptBatch call concepts idOf timeOf topic).length = concepts.length ∧
      conceptBatch call concepts idOf timeOf topic = concepts.enum.map
        (fun p => if p.1 = k then conceptFallbackEntry p.2 (idOf p.1) (timeOf p.1) topic
          else conceptSuccessEntry p.2 (contents p.1) (idOf p.1) (timeOf p.1) topic)) := by
  constructor
  · intro call k contents hk hfail hsucc
    have hmap : sectionBatch call = sectionTitles.enum.map
        (fun p => some ⟨p.2, if p.1 = k then sectionPlaceholder else contents p.1, p.1⟩) := by
      rw [sectionBatch]
      exact List.map_congr_left fun p hp =>
        runSectionTask_spec call k contents hfail hsucc p.1 p.2
          (List.fst_lt_of_mem_enum hp)
    refine ⟨?_, hmap, ?_⟩
    · rw [hmap, List.length_map, List.enum_length]
    · rw [hmap, List.countP_map]
      have hcongr : List.countP
          ((isPlaceholderResult ∘ fun p : Nat × String =>
            some (⟨p.2, if p.1 = k then sectionPlaceholder else contents p.1, p.1⟩ : SectionResult)))
          sectionTitles.enum =
          List.countP (fun p : Nat × String => p.1 == k) sectionTitles.enum := by
        apply List.countP_congr
        intro p hp
        by_cases hpk : p.1 = k
        · simp [Function.comp, isPlaceholderResult, hpk]
        · have hlen := (hsucc p.1 (List.fst_lt_of_mem_enum hp) hpk).2
          have hne : contents p.1 ≠ sectionPlaceholder := by
            intro hEq
            rw [hEq] at hlen
            revert hlen
            decide
          simp [Function.comp, isPlaceholderResult, hpk, hne]
      rw [hcongr]
      have hcount : List.countP (fun p : Nat × String => p.1 == k) sectionTitles.enum =
          List.count k (List.map Prod.fst sectionTitles.enum) := by
        rw [List.count, List.countP_map]
        rfl
      rw [hcount, List.enum_map_fst]
      exact List.count_eq_one_of_mem (List.nodup_range _)
        (List.mem_range.mpr hk)
  · intro call concepts k contents idOf timeOf topic hk hfail hsucc
    have hmap : conceptBatch call concepts idOf timeOf topic = concepts.enum.map
        (fun p => if p.1 = k then conceptFallbackEntry p.2 (idOf p.1) (timeOf p.1) topic
          else conceptSuccessEntry p.2 (contents p.1) (idOf p.1) (timeOf p.1) topic) := by
      rw [conceptBatch]
      have hinner : concepts.enum.map
          (fun p => runConceptTask (call p.1) p.2 (idOf p.1) (timeOf p.1) topic) =
          concepts.enum.map
          (fun p => some (if p.1 = k then conceptFallbackEntry p.2 (idOf p.1) (timeOf p.1) topic
            else conceptSuccessEntry p.2 (contents p.1) (idOf p.1) (timeOf p.1) topic)) := by
        apply List.map_congr_left
        intro p hp
        by_cases hpk : p.1 = k
        · rw [if_pos hpk, hpk]
          exact runConceptTask_all_fail _ _ _ _ _ hfail
        · rw [if_neg hpk]
          obtain ⟨h0, hlen⟩ := hsucc p.1 (List.fst_lt_of_mem_enum hp) hpk
          exact runConceptTask_first_success _ _ _ _ _ _ h0 hlen
      rw [hinner, List.filterMap_map]
      show List.filterMap
          (some ∘ fun p : Nat × ExtractedConcept =>
            if p.1 = k then conceptFallbackEntry p.2 (idOf p.1) (timeOf p.1) topic
            else conceptSuccessEntry p.2 (contents p.1) (idOf p.1) (timeOf p.1) topic)
          concepts.enum =
        List.map
          (fun p : Nat × ExtractedConcept =>
            if p.1 = k then conceptFallbackEntry p.2 (idOf p.1) (timeOf p.1) topic
            else conceptSuccessEntry p.2 (contents p.1) (idOf p.1) (timeOf p.1) topic)
          concepts.enum
      rw [List.filterMap_eq_map]
    refine ⟨?_, hmap⟩
    rw [hmap, List.length_map, List.enum_length]

/-- Closed witness for C4: section task 2 always fails while the others
succeed with 101-character content, and concept task 0 of a two-concept
batch always fails while the other succeeds with 51-character content. -/
theorem fanout_isolates_single_failure_witness :
    ((sectionBatch (fun i _ => if i = 2 then CallOutcome.err "boom"
        else CallOutcome.ok (String.mk (List.replicate 101 'a')))).length =
      sectionTitles.length ∧
      sectionBatch (fun i _ => if i = 2 then CallOutcome.err "boom"
        else CallOutcome.ok (String.mk (List.replicate 101 'a'))) =
        sectionTitles.enum.map (fun p => some ⟨p.2,
          if p.1 = 2 then sectionPlaceholder else String.mk (List.replicate 101 'a'),
          p.1⟩) ∧
      (sectionBatch (fun i _ => if i = 2 then CallOutcome.err "boom"
        else CallOutcome.ok (String.mk (List.replicate 101 'a')))).countP
          isPlaceholderResult = 1) ∧
    ((conceptBatch (fun i _ => if i = 0 then CallOutcome.err "boom"
        else CallOutcome.ok (String.mk (List.replicate 51 'b')))
        [⟨"GAN", none, none, none⟩,
         ⟨"Transformer", some "intro", some ["attention"], some "high"⟩]
        (fun i => toString i) (fun i => i) "deep learning").length =
      [⟨"GAN", none, none, none⟩,
       (⟨"Transformer", some "intro", some ["attention"], some "high"⟩ : ExtractedConcept)].length ∧
      conceptBatch (fun i _ => if i = 0 then CallOutcome.err "boom"
        else CallOutcome.ok (String.mk (List.replicate 51 'b')))
        [⟨"GAN", none, none, none⟩,
         ⟨"Transformer", some "intro", some ["attention"], some "high"⟩]
        (fun i => toString i) (fun i => i) "deep learning" =
        ([⟨"GAN", none, none, none⟩,
          (⟨"Transformer", some "intro", some ["attention"], some "high"⟩ : ExtractedConcept)]).enum.map
          (fun p => if p.1 = 0 then
            conceptFallbackEntry p.2 (toString p.1) p.1 "deep learning"
          else conceptSuccessEntry p.2 (String.mk (List.replicate 51 'b'))
            (toString p.1) p.1 "deep learning")) :=
  ⟨fanout_isolates_single_failure.1
      (fun i _ => if i = 2 then CallOutcome.err "boom"
        else CallOutcome.ok (String.mk (List.replicate 101 'a')))
      2 (fun _ => String.mk (List.replicate 101 'a')) (by decide)
      (fun a _ => ⟨"boom", rfl⟩)
      (fun i _ hik => ⟨by simp [hik],
        (by decide : (String.mk (List.replicate 101 'a')).length > 100)⟩),
   fanout_isolates_single_failure.2
      (fun i _ => if i = 0 then CallOutcome.err "boom"
        else CallOutcome.ok (String.mk (List.replicate 51 'b')))
      [⟨"GAN", none, none, none⟩,
       ⟨"Transformer", some "intro", some ["attention"], some "high"⟩]
      0 (fun _ => String.mk (List.replicate 51 'b'))
      (fun i => toString i) (fun i => i) "deep learning" (by decide)
      (fun a _ => ⟨"boom", rfl⟩)
      (fun i _ hik => ⟨by simp [hik],
        (by decide : (String.mk (List.replicate 51 'b')).length > 50)⟩)⟩
